import Mathlib

/-!
Verification of the image-ingestion service (TypeScript sources) against its
natural-language specification. The relevant program parts are shallowly
embedded as executable Lean definitions:

- `retry` embeds `src/utils/retry.ts` (retry with exponential backoff);
- `fetchImagesForCategory` embeds the pagination loop of
  `UnsplashService.fetchImagesForCategory`;
- `uploadAll` embeds `CloudinaryService.uploadAll`;
- `processProduct` embeds `ImageIngestionWorker.processProduct`;
- `initWorker`, `runWorker`, `mainRun` embed the `ImageIngestionWorker`
  constructor, `run`, `writeFailedProducts` and the `main` entry point.

External effects (HTTP calls, file writes, waits) are represented by
explicit parameters and by trace fields recording which calls were made
and with which arguments.
-/

deriving instance DecidableEq for Except

namespace ImageIngestion

/-- Outcome trace of one `retry(operation, options)` call from
`src/utils/retry.ts`: how many times the operation was invoked, the wait
durations performed between attempts (in order), and the final result.
The error side is `Option ε`: `some e` is an error thrown by the wrapped
operation, `none` is the synthetic final error of line 51 of the source,
reachable only when `attempts = 0`. -/
structure RetryTrace (ε α : Type) where
  calls : Nat
  waits : List Nat
  result : Except (Option ε) α
deriving DecidableEq

/-- The `for (let attempt = 1; attempt <= attempts; attempt++)` loop of
`retry`. `attempt` is the 1-based attempt counter of the source; `remaining`
is the number of loop iterations still to run (`attempts - attempt + 1`).
The operation is modelled as a function of the attempt number so that a
single definition covers operations whose outcome varies per call.
On a non-final failed attempt the source waits
`backoffMs * Math.pow(factor, attempt - 1)` before continuing. -/
def retryLoop (op : Nat → Except ε α) (backoffMs factor : Nat) :
    Nat → Nat → RetryTrace ε α
  | _, 0 => ⟨0, [], Except.error none⟩
  | attempt, remaining + 1 =>
    match op attempt with
    | Except.ok value => ⟨1, [], Except.ok value⟩
    | Except.error e =>
      if remaining = 0 then
        ⟨1, [], Except.error (some e)⟩
      else
        let waitMs := backoffMs * factor ^ (attempt - 1)
        let rest := retryLoop op backoffMs factor (attempt + 1) remaining
        ⟨rest.calls + 1, waitMs :: rest.waits, rest.result⟩

/-- Embeds `retry(operation, options)` with options attempts, backoffMs, factor, from
`src/utils/retry.ts`: run the loop starting at attempt 1. -/
def retry (op : Nat → Except ε α) (attempts backoffMs factor : Nat) :
    RetryTrace ε α :=
  retryLoop op backoffMs factor 1 attempts

theorem retryLoop_all_fail {ε α : Type} (e : Nat → ε) (b f : Nat) :
    ∀ (r a : Nat),
      retryLoop (fun k => (Except.error (e k) : Except ε α)) b f (a + 1) (r + 1) =
        ⟨r + 1, (List.range r).map (fun j => b * f ^ (a + j)),
          Except.error (some (e (a + 1 + r)))⟩ := by
  intro r
  induction r with
  | zero => intro a; simp [retryLoop]
  | succ n ih =>
    intro a
    have hrec := ih (a + 1)
    have hstep : retryLoop (fun k => (Except.error (e k) : Except ε α)) b f
        (a + 1) (n + 1 + 1) =
        ⟨(retryLoop (fun k => (Except.error (e k) : Except ε α)) b f (a + 1 + 1) (n + 1)).calls + 1,
          b * f ^ (a + 1 - 1) ::
            (retryLoop (fun k => (Except.error (e k) : Except ε α)) b f (a + 1 + 1) (n + 1)).waits,
          (retryLoop (fun k => (Except.error (e k) : Except ε α)) b f (a + 1 + 1) (n + 1)).result⟩ := by
      simp [retryLoop]
    rw [hstep, hrec]
    simp only [RetryTrace.mk.injEq]
    refine ⟨trivial, ?_, ?_⟩
    · have hcons : (List.range (n + 1)).map (fun j => b * f ^ (a + j)) =
          b * f ^ a :: (List.range n).map (fun j => b * f ^ (a + 1 + j)) := by
        rw [List.range_succ_eq_map, List.map_cons, List.map_map, Nat.add_zero]
        refine congrArg₂ _ rfl (List.map_congr_left ?_)
        intro j _
        have harith : a + Nat.succ j = a + 1 + j := by omega
        simp only [Function.comp_apply, harith]
      rw [Nat.add_sub_cancel, hcons]
    · have harith : a + 1 + 1 + n = a + 1 + (n + 1) := by omega
      rw [harith]

/-- C3: for every `attempts = N ≥ 1` and every operation failing on every
call, `retry` invokes the operation exactly N times, performs exactly N-1
waits of `backoffMs * factor ^ (k - 1)` before the k-th retry (the list
entry at 0-based index `k` is the wait after the (k+1)-st failed attempt),
and propagates exactly the error raised by the final, N-th attempt. -/
theorem retry_always_fails_spec {ε α : Type} (e : Nat → ε) (N b f : Nat)
    (hN : 1 ≤ N) :
    (retry (fun k => (Except.error (e k) : Except ε α)) N b f).calls = N ∧
    (retry (fun k => (Except.error (e k) : Except ε α)) N b f).waits =
      (List.range (N - 1)).map (fun k => b * f ^ k) ∧
    (retry (fun k => (Except.error (e k) : Except ε α)) N b f).result =
      Except.error (some (e N)) := by
  obtain ⟨r, rfl⟩ : ∃ r, N = r + 1 :=
    ⟨N - 1, (Nat.succ_pred_eq_of_pos hN).symm⟩
  have h := retryLoop_all_fail (α := α) e b f r 0
  simp only [Nat.zero_add] at h
  refine ⟨?_, ?_, ?_⟩
  · rw [retry, h]
  · rw [retry, h, Nat.add_sub_cancel]
  · rw [retry, h, Nat.add_comm 1 r]

/-- Witness for C3 at N = 3, backoffMs = 500, factor = 2: three calls,
waits 500 and 1000, and the error of the third attempt is propagated. -/
theorem retry_always_fails_spec_witness :
    1 ≤ 3 ∧
    (retry (fun k => (Except.error k : Except Nat Unit)) 3 500 2).calls = 3 ∧
    (retry (fun k => (Except.error k : Except Nat Unit)) 3 500 2).waits =
      [500, 1000] ∧
    (retry (fun k => (Except.error k : Except Nat Unit)) 3 500 2).result =
      Except.error (some 3) :=
  have h := retry_always_fails_spec (fun k => k) 3 500 2 (by decide)
  ⟨by decide, h.1, h.2.1.trans (by decide), h.2.2⟩

/-- One item of an Unsplash search response, reduced to the only field the
source reads: `item.urls.regular`. -/
structure UnsplashItem where
  regularUrl : String
deriving DecidableEq

/-- The value returned by `makeUnsplashRequest`: the `total_pages` field of
the response (`pages`) and the result items. -/
structure UnsplashPage where
  pages : Nat
  results : List UnsplashItem
deriving DecidableEq

/-- The inclusive integer range `[lo, hi]`, as traversed by
`for (let i = lo; i <= hi; i++)`. -/
def pageRange (lo hi : Nat) : List Nat :=
  (List.range (hi + 1 - lo)).map (fun j => j + lo)

/-- The URLs contributed by one page response:
`response.results.map(item => item.urls.regular)`; an error contributes
nothing (the exception aborts the whole fetch). -/
def pageUrls : Except ε UnsplashPage → List String
  | Except.ok page => page.results.map (fun item => item.regularUrl)
  | Except.error _ => []

/-- The `for (let i = 2; i <= pageLimit; i++)` loop of
`UnsplashService.fetchImagesForCategory`. `request i` stands for the
(retry-wrapped) `makeUnsplashRequest(query, remaining, i)` call for page
`i`. Returns the pages actually requested, in order, and either the URLs
pushed by the loop or the first error raised, which aborts the loop. -/
def fetchLoop (request : Nat → Except ε UnsplashPage) :
    List Nat → List Nat × Except ε (List String)
  | [] => ([], Except.ok [])
  | i :: rest =>
    match request i with
    | Except.error err => ([i], Except.error err)
    | Except.ok page =>
      let next := fetchLoop request rest
      (i :: next.1,
        next.2.map (fun urls =>
          page.results.map (fun item => item.regularUrl) ++ urls))

/-- Embeds `UnsplashService.fetchImagesForCategory`: request page 1; on an empty
result list return `[]`; otherwise, when the response reports more than one
page, also request pages `2 .. min(pages, 10)` and append their URLs. The
first component records every page number requested, in order. -/
def fetchImagesForCategory (request : Nat → Except ε UnsplashPage) :
    List Nat × Except ε (List String) :=
  match request 1 with
  | Except.error err => ([1], Except.error err)
  | Except.ok page1 =>
    if page1.results.length = 0 then ([1], Except.ok [])
    else
      let images := page1.results.map (fun item => item.regularUrl)
      if page1.pages > 1 then
        let pageLimit := min page1.pages 10
        let next := fetchLoop request (pageRange 2 pageLimit)
        (1 :: next.1, next.2.map (fun urls => images ++ urls))
      else ([1], Except.ok images)

theorem fetchLoop_mem {ε : Type} (request : Nat → Except ε UnsplashPage) :
    ∀ (l : List Nat) (q : Nat), q ∈ (fetchLoop request l).1 → q ∈ l := by
  intro l
  induction l with
  | nil => intro q hq; simp [fetchLoop] at hq
  | cons i rest ih =>
    intro q hq
    simp only [fetchLoop] at hq
    cases hreq : request i with
    | error err =>
      rw [hreq] at hq
      simp only [List.mem_singleton] at hq
      exact hq ▸ List.mem_cons_self i rest
    | ok page =>
      rw [hreq] at hq
      simp only [List.mem_cons] at hq
      rcases hq with rfl | hq
      · exact List.mem_cons_self q rest
      · exact List.mem_cons_of_mem i (ih q hq)

theorem fetchLoop_length {ε : Type} (request : Nat → Except ε UnsplashPage) :
    ∀ l : List Nat, (fetchLoop request l).1.length ≤ l.length := by
  intro l
  induction l with
  | nil => simp [fetchLoop]
  | cons i rest ih =>
    simp only [fetchLoop]
    cases request i with
    | error err => simp
    | ok page => simpa using ih

theorem fetchLoop_ok {ε : Type} (request : Nat → Except ε UnsplashPage) :
    ∀ (l : List Nat) (urls : List String),
      (fetchLoop request l).2 = Except.ok urls →
      urls = ((fetchLoop request l).1.map (fun q => pageUrls (request q))).flatten := by
  intro l
  induction l with
  | nil =>
    intro urls h
    simp only [fetchLoop, Except.ok.injEq] at h
    simp [fetchLoop, ← h]
  | cons i rest ih =>
    intro urls h
    simp only [fetchLoop] at h ⊢
    cases hreq : request i with
    | error err => rw [hreq] at h; exact absurd h (by simp)
    | ok page =>
      rw [hreq] at h
      simp only [Except.map] at h
      cases hrest : (fetchLoop request rest).2 with
      | error err => rw [hrest] at h; exact absurd h (by simp)
      | ok urlsRest =>
        rw [hrest] at h
        simp only [Except.ok.injEq] at h
        subst h
        rw [List.map_cons, List.flatten_cons, ← ih urlsRest hrest, hreq]
        rfl

theorem pageRange_mem {lo hi q : Nat} (h : q ∈ pageRange lo hi) :
    lo ≤ q ∧ q ≤ hi := by
  simp only [pageRange, List.mem_map, List.mem_range] at h
  obtain ⟨j, hj, rfl⟩ := h
  omega

theorem pageRange_length (lo hi : Nat) :
    (pageRange lo hi).length = hi + 1 - lo := by
  simp [pageRange]

/-- C9: for every category fetch, the page loop requests at most 10 pages:
page 1 always, and further pages only in the range `2 .. min(reported
pages, 10)` even when the source reports more pages; and every successful
result consists exactly of the URLs gathered from the pages requested
within that bound, in order. -/
theorem fetch_page_bound {ε : Type} (request : Nat → Except ε UnsplashPage) :
    (fetchImagesForCategory request).1.length ≤ 10 ∧
    (∀ q ∈ (fetchImagesForCategory request).1,
        q = 1 ∨ ∃ page1, request 1 = Except.ok page1 ∧
          2 ≤ q ∧ q ≤ min page1.pages 10) ∧
    (∀ urls, (fetchImagesForCategory request).2 = Except.ok urls →
        urls = ((fetchImagesForCategory request).1.map
          (fun q => pageUrls (request q))).flatten) := by
  cases hreq : request 1 with
  | error err =>
    refine ⟨?_, ?_, ?_⟩ <;> simp [fetchImagesForCategory, hreq]
  | ok page1 =>
    by_cases hempty : page1.results.length = 0
    · have hnil : page1.results = [] := List.length_eq_zero.mp hempty
      refine ⟨?_, ?_, ?_⟩ <;>
        simp [fetchImagesForCategory, hreq, hempty, pageUrls, hnil]
    · by_cases hpages : page1.pages > 1
      · have hunfold : fetchImagesForCategory request =
            (1 :: (fetchLoop request (pageRange 2 (min page1.pages 10))).1,
              (fetchLoop request (pageRange 2 (min page1.pages 10))).2.map
                (fun urls =>
                  page1.results.map (fun item => item.regularUrl) ++ urls)) := by
          simp [fetchImagesForCategory, hreq, hempty, hpages]
        rw [hunfold]
        refine ⟨?_, ?_, ?_⟩
        · have h1 := fetchLoop_length request (pageRange 2 (min page1.pages 10))
          have h2 := pageRange_length 2 (min page1.pages 10)
          have h3 : min page1.pages 10 ≤ 10 := Nat.min_le_right _ _
          simp only [List.length_cons]
          omega
        · intro q hq
          simp only [List.mem_cons] at hq
          rcases hq with rfl | hq
          · exact Or.inl rfl
          · have hmem := pageRange_mem (fetchLoop_mem request _ q hq)
            exact Or.inr ⟨page1, rfl, hmem.1, hmem.2⟩
        · intro urls h
          cases hnext : (fetchLoop request (pageRange 2 (min page1.pages 10))).2 with
          | error err =>
            rw [hnext] at h
            exact absurd h (by simp [Except.map])
          | ok urlsRest =>
            rw [hnext] at h
            simp only [Except.map, Except.ok.injEq] at h
            subst h
            rw [List.map_cons, List.flatten_cons,
              ← fetchLoop_ok request _ urlsRest hnext, hreq]
            rfl
      · refine ⟨?_, ?_, ?_⟩ <;>
          simp [fetchImagesForCategory, hreq, hempty, hpages, pageUrls]

/-- A concrete source reporting 3 pages with one image per page. -/
def exampleRequest : Nat → Except Unit UnsplashPage := fun _ =>
  Except.ok ⟨3, [⟨"u"⟩]⟩

/-- Witness for C9: against `exampleRequest`, pages 1, 2 and 3 are
requested and the successful result is exactly the URLs of those pages. -/
theorem fetch_page_bound_witness :
    (fetchImagesForCategory exampleRequest).1 = [1, 2, 3] ∧
    (fetchImagesForCategory exampleRequest).2 = Except.ok ["u", "u", "u"] ∧
    ["u", "u", "u"] = ((fetchImagesForCategory exampleRequest).1.map
      (fun q => pageUrls (exampleRequest q))).flatten :=
  ⟨rfl, rfl, (fetch_page_bound exampleRequest).2.2 _ rfl⟩

/-- The `image` record of `src/types/image.ts`, built by
`CloudinaryService.uploadAll` from the Cloudinary upload response. -/
structure UploadedImage where
  secureUrl : String
  publicId : String
  width : Nat
  height : Nat
  bytes : Nat
  format : String
deriving DecidableEq

/-- The sequential loop of `CloudinaryService.uploadAll`: for the `i`-th
URL, `downloadImage(url)` then `uploadBuffer(buffer, productId, i)`; each
resulting image is appended in order, and any failure aborts the whole
call, discarding the partial list. The buffer type `β` is abstract. -/
def uploadAllGo (download : String → Except ε β)
    (uploadBuffer : β → Nat → Nat → Except ε UploadedImage)
    (productId : Nat) : Nat → List String → Except ε (List UploadedImage)
  | _, [] => Except.ok []
  | i, url :: rest => do
    let buffer ← download url
    let img ← uploadBuffer buffer productId i
    let imgs ← uploadAllGo download uploadBuffer productId (i + 1) rest
    pure (img :: imgs)

/-- Embeds `CloudinaryService.uploadAll(imageUrls, productId)`: process the URLs
sequentially starting at index 0. -/
def uploadAll (download : String → Except ε β)
    (uploadBuffer : β → Nat → Nat → Except ε UploadedImage)
    (imageUrls : List String) (productId : Nat) :
    Except ε (List UploadedImage) :=
  uploadAllGo download uploadBuffer productId 0 imageUrls

/-- Item-level failure reasons of `ImageIngestionWorker.processProduct`:
an error propagated from a stage, the thrown
error with message `Unsplash returned zero images`, and the thrown error
with message `Failed to upload all images to Cloudinary` for the count
mismatch the spec calls a partial upload. -/
inductive PipelineError (ε : Type) where
  | external (e : ε)
  | zeroImages
  | countMismatch
deriving DecidableEq

/-- Trace of one `processProduct` call: whether the upload stage
(`cloudinaryService.uploadAll`) and the registration stage
(`laravelApiClient.uploadProductImages`) were invoked, and the outcome. -/
structure PipelineTrace (ε : Type) where
  uploadCalled : Bool
  registerCalled : Bool
  outcome : Except (PipelineError ε) Unit
deriving DecidableEq

/-- Embeds `ImageIngestionWorker.processProduct`. `fetchResult` is the outcome of
`retry(() => unsplashService.fetchImagesForCategory(categorySlug))`,
`uploadResult` the outcome of `retry(() => cloudinaryService.uploadAll(rawUrls, id))`
as a function of the fetched URLs, and `registerResult` the outcome of
`laravelApiClient.uploadProductImages(id, uploadedImageUrls)` as a function
of the uploaded images. Mirrors the source: an empty fetch result throws
before any upload; a length mismatch between fetched and uploaded lists
throws before registration. -/
def processProduct (fetchResult : Except ε (List String))
    (uploadResult : List String → Except ε (List UploadedImage))
    (registerResult : List UploadedImage → Except ε Unit) :
    PipelineTrace ε :=
  match fetchResult with
  | Except.error e => ⟨false, false, Except.error (PipelineError.external e)⟩
  | Except.ok rawUrls =>
    if rawUrls.length = 0 then
      ⟨false, false, Except.error PipelineError.zeroImages⟩
    else
      match uploadResult rawUrls with
      | Except.error e => ⟨true, false, Except.error (PipelineError.external e)⟩
      | Except.ok uploadedImageUrls =>
        if rawUrls.length ≠ uploadedImageUrls.length then
          ⟨true, false, Except.error PipelineError.countMismatch⟩
        else
          match registerResult uploadedImageUrls with
          | Except.error e => ⟨true, true, Except.error (PipelineError.external e)⟩
          | Except.ok _ => ⟨true, true, Except.ok ()⟩

/-- C4: an item whose source-fetch stage returns an empty list fails with
the zero-images reason, and neither the upload stage nor the registration
stage is called. -/
theorem processProduct_empty_fetch {ε : Type}
    (uploadResult : List String → Except ε (List UploadedImage))
    (registerResult : List UploadedImage → Except ε Unit) :
    processProduct (Except.ok []) uploadResult registerResult =
      ⟨false, false, Except.error PipelineError.zeroImages⟩ := rfl

/-- C5: when the upload stage returns a list whose length differs from the
fetched list, the item fails with the count-mismatch (partial upload)
reason and registration is never called. -/
theorem processProduct_count_mismatch {ε : Type} (rawUrls : List String)
    (uploadedImageUrls : List UploadedImage)
    (uploadResult : List String → Except ε (List UploadedImage))
    (registerResult : List UploadedImage → Except ε Unit)
    (h1 : rawUrls.length ≠ 0)
    (h2 : uploadResult rawUrls = Except.ok uploadedImageUrls)
    (h3 : rawUrls.length ≠ uploadedImageUrls.length) :
    processProduct (Except.ok rawUrls) uploadResult registerResult =
      ⟨true, false, Except.error PipelineError.countMismatch⟩ := by
  rw [processProduct.eq_def]
  simp [h1, h2, h3]

/-- Witness for C5: one fetched URL, an upload stage returning an empty
list. -/
theorem processProduct_count_mismatch_witness :
    (["a"] : List String).length ≠ 0 ∧
    (fun _ => (Except.ok [] : Except Unit (List UploadedImage))) ["a"] =
      Except.ok [] ∧
    (["a"] : List String).length ≠ ([] : List UploadedImage).length ∧
    processProduct (Except.ok ["a"])
        (fun _ => (Except.ok [] : Except Unit (List UploadedImage)))
        (fun _ => Except.ok ()) =
      ⟨true, false, Except.error PipelineError.countMismatch⟩ :=
  ⟨by decide, rfl, by decide,
    processProduct_count_mismatch ["a"] [] _ _ (by decide) rfl (by decide)⟩

theorem uploadAllGo_spec {ε β : Type} (download : String → Except ε β)
    (uploadBuffer : β → Nat → Nat → Except ε UploadedImage) (productId : Nat) :
    ∀ (urls : List String) (i : Nat) (imgs : List UploadedImage),
      uploadAllGo download uploadBuffer productId i urls = Except.ok imgs →
      imgs.length = urls.length ∧
      ∀ (j : Nat) (hj : j < urls.length) (hj2 : j < imgs.length),
        ∃ buffer, download (urls.get ⟨j, hj⟩) = Except.ok buffer ∧
          uploadBuffer buffer productId (i + j) =
            Except.ok (imgs.get ⟨j, hj2⟩) := by
  intro urls
  induction urls with
  | nil =>
    intro i imgs h
    simp only [uploadAllGo, Except.ok.injEq] at h
    subst h
    exact ⟨rfl, fun j hj _ => absurd hj (by simp)⟩
  | cons url rest ih =>
    intro i imgs h
    simp only [uploadAllGo, bind, Except.bind] at h
    split at h
    next err hdl => exact absurd h (by simp)
    next buffer hdl =>
      split at h
      next err hub => exact absurd h (by simp)
      next img hub =>
        split at h
        next err hrec => exact absurd h (by simp)
        next imgsRest hrec =>
          simp only [pure, Except.pure, Except.ok.injEq] at h
          subst h
          obtain ⟨hlen, hidx⟩ := ih (i + 1) imgsRest hrec
          refine ⟨by simp [hlen], ?_⟩
          intro j hj hj2
          cases j with
          | zero =>
            refine ⟨buffer, hdl, ?_⟩
            simpa using hub
          | succ j =>
            have hj' : j < rest.length := by simpa using hj
            have hj2' : j < imgsRest.length := by simpa using hj2
            obtain ⟨buffer', hdl', hub'⟩ := hidx j hj' hj2'
            refine ⟨buffer', hdl', ?_⟩
            have harith : i + (j + 1) = i + 1 + j := by omega
            rw [harith]
            exact hub'

/-- C10: a successful `uploadAll` return carries exactly one uploaded image
per input URL: the result length equals the input length and the j-th
image is the upload, at index j, of the buffer downloaded from the j-th
URL. Consequently, when the upload stage of `processProduct` is
implemented by `uploadAll`, the partial-upload count-mismatch branch is
unreachable. -/
theorem uploadAll_preserves_length {ε β : Type} (download : String → Except ε β)
    (uploadBuffer : β → Nat → Nat → Except ε UploadedImage)
    (imageUrls : List String) (productId : Nat) (imgs : List UploadedImage)
    (h : uploadAll download uploadBuffer imageUrls productId = Except.ok imgs) :
    imgs.length = imageUrls.length ∧
    (∀ (j : Nat) (hj : j < imageUrls.length) (hj2 : j < imgs.length),
        ∃ buffer, download (imageUrls.get ⟨j, hj⟩) = Except.ok buffer ∧
          uploadBuffer buffer productId j = Except.ok (imgs.get ⟨j, hj2⟩)) ∧
    (∀ (fetchResult : Except ε (List String))
        (registerResult : List UploadedImage → Except ε Unit),
        (processProduct fetchResult
            (fun rawUrls => uploadAll download uploadBuffer rawUrls productId)
            registerResult).outcome ≠
          Except.error PipelineError.countMismatch) := by
  obtain ⟨hlen, hidx⟩ :=
    uploadAllGo_spec download uploadBuffer productId imageUrls 0 imgs h
  refine ⟨hlen, ?_, ?_⟩
  · intro j hj hj2
    obtain ⟨buffer, hd, hu⟩ := hidx j hj hj2
    exact ⟨buffer, hd, by simpa using hu⟩
  · intro fetchResult registerResult
    cases fetchResult with
    | error e => simp [processProduct]
    | ok rawUrls =>
      by_cases hraw : rawUrls.length = 0
      · simp [processProduct, hraw]
      · cases hup : uploadAll download uploadBuffer rawUrls productId with
        | error err => simp [processProduct, hraw, hup]
        | ok ups =>
          have hl :=
            (uploadAllGo_spec download uploadBuffer productId rawUrls 0 ups hup).1
          simp only [processProduct, hraw, if_false, hup]
          rw [if_neg (by omega)]
          cases registerResult ups <;> simp

/-- A concrete image record for witnesses. -/
def exampleImage : UploadedImage :=
  ⟨"https://res.example/image.jpg", "products/5/image_0", 100, 80, 1234, "jpg"⟩

/-- Witness for C10: a one-URL upload that succeeds returns exactly one
image. -/
theorem uploadAll_preserves_length_witness :
    uploadAll (fun _ => (Except.ok 0 : Except Unit Nat))
        (fun _ _ _ => Except.ok exampleImage) ["u"] 5 =
      Except.ok [exampleImage] ∧
    ([exampleImage] : List UploadedImage).length = (["u"] : List String).length :=
  ⟨rfl, (uploadAll_preserves_length (fun _ => (Except.ok 0 : Except Unit Nat))
      (fun _ _ _ => Except.ok exampleImage) ["u"] 5 [exampleImage] rfl).1⟩

/-- One entry of `data/products.json`, reduced to the only field the
orchestrator selection and accumulator logic read: `product.id`. -/
structure Product where
  id : Nat
deriving DecidableEq

/-- The two private fields of `ImageIngestionWorker` set by its
constructor: `productsToProcess` and `failedProducts`. -/
structure WorkerState where
  productsToProcess : List Product
  failedProducts : List Nat
deriving DecidableEq

/-- The `ImageIngestionWorker` constructor. `productsFlag` is the parsed
id list of a `--products=` argument when present; `useFailedFlag` is
whether `--useFailed` was passed; `failedManifest` is the outcome of
the `require` call on `data/failed-products.json`: `Except.error` when loading
throws, otherwise the optional `failed` field of the loaded record
(`failedFile.failed || []`). Mirrors the source precedence: a
`--products=` flag returns immediately; otherwise `--useFailed` loads the
manifest, keeping its ids in `failedProducts`, and on a load error falls
through to the full run. -/
def initWorker (products : List Product) (productsFlag : Option (List Nat))
    (useFailedFlag : Bool) (failedManifest : Except Unit (Option (List Nat))) :
    WorkerState :=
  match productsFlag with
  | some productIds =>
    { productsToProcess := products.filter (fun p => productIds.contains p.id)
      failedProducts := [] }
  | none =>
    if useFailedFlag then
      match failedManifest with
      | Except.ok manifest =>
        let failed := manifest.getD []
        { productsToProcess := products.filter (fun p => failed.contains p.id)
          failedProducts := failed }
      | Except.error _ =>
        { productsToProcess := products, failedProducts := [] }
    else
      { productsToProcess := products, failedProducts := [] }

/-- Embeds the spread `[...new Set(list)]`: keep the first occurrence of each element, in
order, as used by `writeFailedProducts` to clean duplicate ids. -/
def jsSetDedupGo (seen : List Nat) : List Nat → List Nat
  | [] => []
  | x :: xs =>
    if seen.contains x then jsSetDedupGo seen xs
    else x :: jsSetDedupGo (x :: seen) xs

/-- Embeds the spread `[...new Set(list)]` starting from no elements seen. -/
def jsSetDedup (l : List Nat) : List Nat := jsSetDedupGo [] l

/-- The `for (const product of this.productsToProcess)` loop of
`ImageIngestionWorker.run`: `succeeds p` tells whether
`processProduct(p)` resolves for this product. Returns the ids processed,
in order, and the ids pushed onto `failedProducts`, in push order; a
failure never stops the loop. -/
def runLoop (succeeds : Product → Bool) : List Product → List Nat × List Nat
  | [] => ([], [])
  | p :: ps =>
    let rest := runLoop succeeds ps
    (p.id :: rest.1, (if succeeds p then [] else [p.id]) ++ rest.2)

/-- Observable outcome of `ImageIngestionWorker.run` followed by its
summary output: the ids processed in order, the final `failedProducts`
accumulator, the manifest payload written by `writeFailedProducts`
(`none` when the accumulator is empty and the write is skipped, leaving
any existing file untouched), the id list of the printed rerun suggestion
(`none` when no failures are reported), and the printed success and
failure counts. -/
structure RunResult where
  processed : List Nat
  failedProducts : List Nat
  manifestWrite : Option (List Nat)
  suggestion : Option (List Nat)
  successCount : Int
  failedCount : Nat
deriving DecidableEq

/-- Embeds `ImageIngestionWorker.run` plus `writeFailedProducts`: iterate the
selected products, appending failures to the accumulator the constructor
initialised; afterwards write the deduplicated accumulator when it is
non-empty (skipping the write otherwise), print counts computed from the
raw accumulator, and, when it is non-empty, print the rerun suggestion
listing the raw accumulator ids. -/
def runWorker (st : WorkerState) (succeeds : Product → Bool) : RunResult :=
  let looped := runLoop succeeds st.productsToProcess
  let failed := st.failedProducts ++ looped.2
  { processed := looped.1
    failedProducts := failed
    manifestWrite := if failed.length = 0 then none else some (jsSetDedup failed)
    suggestion := if failed.length > 0 then some failed else none
    successCount := (st.productsToProcess.length : Int) - (failed.length : Int)
    failedCount := failed.length }

/-- Embeds `main` from `src/index.ts`: construct the worker and run it, exiting
with code 0 on completion and 1 when setup fails. `datasetLoad` models
loading `data/products.json`; a run whose setup succeeds always reaches
`process.exit(0)` because `run` catches every per-product error and
`writeFailedProducts` catches its own write errors. -/
def mainRun (datasetLoad : Except Unit (List Product))
    (productsFlag : Option (List Nat)) (useFailedFlag : Bool)
    (failedManifest : Except Unit (Option (List Nat)))
    (succeeds : Product → Bool) : Nat × Option RunResult :=
  match datasetLoad with
  | Except.error _ => (1, none)
  | Except.ok products =>
    (0, some (runWorker
      (initWorker products productsFlag useFailedFlag failedManifest) succeeds))

theorem jsSetDedupGo_mem :
    ∀ (l seen : List Nat) (x : Nat), x ∈ jsSetDedupGo seen l → x ∈ l ∧ x ∉ seen := by
  intro l
  induction l with
  | nil => intro seen x hx; simp [jsSetDedupGo] at hx
  | cons y ys ih =>
    intro seen x hx
    simp only [jsSetDedupGo] at hx
    by_cases hy : seen.contains y
    · rw [if_pos hy] at hx
      obtain ⟨h1, h2⟩ := ih seen x hx
      exact ⟨List.mem_cons_of_mem y h1, h2⟩
    · rw [if_neg hy] at hx
      rcases List.mem_cons.mp hx with rfl | hx'
      · exact ⟨List.mem_cons_self x ys, fun hc => hy (List.elem_iff.mpr hc)⟩
      · obtain ⟨h1, h2⟩ := ih (y :: seen) x hx'
        exact ⟨List.mem_cons_of_mem y h1, fun hc => h2 (List.mem_cons_of_mem y hc)⟩

theorem jsSetDedupGo_nodup :
    ∀ (l seen : List Nat), (jsSetDedupGo seen l).Nodup := by
  intro l
  induction l with
  | nil => intro seen; simp [jsSetDedupGo]
  | cons y ys ih =>
    intro seen
    simp only [jsSetDedupGo]
    by_cases hy : seen.contains y
    · rw [if_pos hy]; exact ih seen
    · rw [if_neg hy]
      refine List.nodup_cons.mpr ⟨?_, ih (y :: seen)⟩
      intro hmem
      exact (jsSetDedupGo_mem ys (y :: seen) y hmem).2 (List.mem_cons_self y seen)

theorem jsSetDedup_nodup (l : List Nat) : (jsSetDedup l).Nodup :=
  jsSetDedupGo_nodup l []

theorem runLoop_processed (succeeds : Product → Bool) :
    ∀ l : List Product, (runLoop succeeds l).1 = l.map (fun p => p.id) := by
  intro l
  induction l with
  | nil => rfl
  | cons p ps ih => simp [runLoop, ih]

theorem runLoop_failed_mem (succeeds : Product → Bool) :
    ∀ (l : List Product) (p : Product), p ∈ l → succeeds p = false →
      p.id ∈ (runLoop succeeds l).2 := by
  intro l
  induction l with
  | nil => intro p hp; simp at hp
  | cons q qs ih =>
    intro p hp hfail
    rcases List.mem_cons.mp hp with rfl | hp'
    · simp [runLoop, hfail]
    · simp only [runLoop, List.mem_append]
      exact Or.inr (ih p hp' hfail)

/-- C7: a targeted run selects exactly the dataset products whose id is in
the supplied list, keeping dataset order (the selection is a sublist of
the dataset); supplied ids without a matching dataset product are simply
absent from the selection and cause no error. -/
theorem targeted_run_selection (products : List Product) (productIds : List Nat)
    (useFailedFlag : Bool) (failedManifest : Except Unit (Option (List Nat))) :
    ((initWorker products (some productIds) useFailedFlag
        failedManifest).productsToProcess).Sublist products ∧
    (∀ p : Product,
        p ∈ (initWorker products (some productIds) useFailedFlag
            failedManifest).productsToProcess ↔
          p ∈ products ∧ p.id ∈ productIds) := by
  refine ⟨List.filter_sublist _, ?_⟩
  intro p
  simp [initWorker, List.mem_filter, List.elem_iff]

/-- Witness for C7, the example of the claim: `--products=3,7` against a
dataset with ids 1, 3, 5, 7 selects exactly the products 3 and 7, and the
absence of a product with some supplied id is not an error. -/
theorem targeted_run_selection_witness :
    (initWorker [⟨1⟩, ⟨3⟩, ⟨5⟩, ⟨7⟩] (some [3, 7]) false
        (Except.error ())).productsToProcess = [⟨3⟩, ⟨7⟩] ∧
    (Product.mk 3 ∈ (initWorker [⟨1⟩, ⟨3⟩, ⟨5⟩, ⟨7⟩] (some [3, 7]) false
        (Except.error ())).productsToProcess ↔
      Product.mk 3 ∈ [Product.mk 1, ⟨3⟩, ⟨5⟩, ⟨7⟩] ∧ (3 : Nat) ∈ [3, 7]) :=
  ⟨by decide,
    (targeted_run_selection [⟨1⟩, ⟨3⟩, ⟨5⟩, ⟨7⟩] [3, 7] false (Except.error ())).2 ⟨3⟩⟩

/-- C8: the selection mode is resolved once in the constructor with
precedence explicit id list over failed-manifest rerun over full dataset:
with a products flag the result does not depend on the useFailed flag, and
a requested failed-manifest rerun whose manifest load fails falls back to
the full dataset instead of aborting; a readable manifest filters the
dataset by its ids. -/
theorem selection_precedence_fallback (products : List Product)
    (productIds manifestIds : List Nat)
    (failedManifest : Except Unit (Option (List Nat))) :
    (initWorker products (some productIds) true failedManifest =
      initWorker products (some productIds) false failedManifest) ∧
    ((initWorker products none true (Except.error ())).productsToProcess =
      products) ∧
    ((initWorker products none true (Except.error ())).failedProducts = []) ∧
    ((initWorker products none true (Except.ok (some manifestIds))).productsToProcess =
      products.filter (fun p => manifestIds.contains p.id)) ∧
    ((initWorker products none false failedManifest).productsToProcess =
      products) :=
  ⟨rfl, rfl, rfl, rfl, rfl⟩

/-- C6: every selected product is processed exactly once and in order
(the processed id list is exactly the selection), a failed product has its
id recorded in the accumulator while the loop continues over all remaining
products, and the exit code is 0 whenever setup succeeds — failures or
not — while a dataset-load fault exits 1. -/
theorem run_failure_isolation_exit_code (products : List Product)
    (productsFlag : Option (List Nat)) (useFailedFlag : Bool)
    (failedManifest : Except Unit (Option (List Nat)))
    (succeeds : Product → Bool) :
    (runWorker (initWorker products productsFlag useFailedFlag failedManifest)
        succeeds).processed =
      ((initWorker products productsFlag useFailedFlag
          failedManifest).productsToProcess).map (fun p => p.id) ∧
    (∀ p ∈ (initWorker products productsFlag useFailedFlag
          failedManifest).productsToProcess,
        succeeds p = false →
        p.id ∈ (runWorker (initWorker products productsFlag useFailedFlag
            failedManifest) succeeds).failedProducts) ∧
    (mainRun (Except.ok products) productsFlag useFailedFlag failedManifest
        succeeds).1 = 0 ∧
    (mainRun (Except.error ()) productsFlag useFailedFlag failedManifest
        succeeds).1 = 1 := by
  refine ⟨runLoop_processed succeeds _, ?_, rfl, rfl⟩
  intro p hp hfail
  simp only [runWorker, List.mem_append]
  exact Or.inr (runLoop_failed_mem succeeds _ p hp hfail)

/-- Witness for C6: a one-product dataset whose pipeline fails is
processed, its id is recorded, and the process still exits 0. -/
theorem run_failure_isolation_exit_code_witness :
    Product.mk 2 ∈ (initWorker [⟨2⟩] none false
        (Except.error ())).productsToProcess ∧
    (2 : Nat) ∈ (runWorker (initWorker [⟨2⟩] none false (Except.error ()))
        (fun _ => false)).failedProducts ∧
    (mainRun (Except.ok [⟨2⟩]) none false (Except.error ())
        (fun _ => false)).1 = 0 :=
  have h := run_failure_isolation_exit_code [⟨2⟩] none false (Except.error ())
    (fun _ => false)
  ⟨by decide, h.2.1 ⟨2⟩ (by decide) rfl, h.2.2.1⟩

/-- C2, counterexample: in a failed-manifest rerun from a manifest listing
ids 2 and 9 where product 2 fails again, the accumulator ends as
`[2, 9, 2]` and the printed rerun suggestion lists `[2, 9, 2]` — not the
deduplicated id list `[2, 9]` that is written to the manifest. -/
theorem suggestion_not_deduplicated :
    (runWorker (initWorker [⟨2⟩] none true (Except.ok (some [2, 9])))
        (fun _ => false)).suggestion = some [2, 9, 2] ∧
    (runWorker (initWorker [⟨2⟩] none true (Except.ok (some [2, 9])))
        (fun _ => false)).manifestWrite = some [2, 9] ∧
    some [2, 9, 2] ≠ (some [2, 9] : Option (List Nat)) := by decide

/-- C2 as amended: after the run loop the accumulator is deduplicated for
persistence — when non-empty, the deduplicated id list (first occurrences,
no duplicates) is written as the manifest, and a rerun suggestion is
emitted listing the raw accumulator ids, which may contain duplicates;
when empty, no manifest write occurs and no suggestion is emitted. -/
theorem manifest_write_dedup (st : WorkerState) (succeeds : Product → Bool) :
    ((runWorker st succeeds).failedProducts = [] →
      (runWorker st succeeds).manifestWrite = none ∧
      (runWorker st succeeds).suggestion = none) ∧
    ((runWorker st succeeds).failedProducts ≠ [] →
      (runWorker st succeeds).manifestWrite =
        some (jsSetDedup ((runWorker st succeeds).failedProducts)) ∧
      (runWorker st succeeds).suggestion =
        some ((runWorker st succeeds).failedProducts)) ∧
    (∀ w, (runWorker st succeeds).manifestWrite = some w → w.Nodup) := by
  have hmw : (runWorker st succeeds).manifestWrite =
      if ((runWorker st succeeds).failedProducts).length = 0 then none
      else some (jsSetDedup ((runWorker st succeeds).failedProducts)) := rfl
  have hsg : (runWorker st succeeds).suggestion =
      if ((runWorker st succeeds).failedProducts).length > 0
      then some ((runWorker st succeeds).failedProducts) else none := rfl
  refine ⟨?_, ?_, ?_⟩
  · intro hempty
    rw [hmw, hsg, hempty]
    exact ⟨rfl, rfl⟩
  · intro hne
    have hpos : 0 < ((runWorker st succeeds).failedProducts).length :=
      List.length_pos.mpr hne
    rw [hmw, hsg, if_neg (by omega), if_pos hpos]
    exact ⟨rfl, rfl⟩
  · intro w hw
    rw [hmw] at hw
    by_cases h0 : ((runWorker st succeeds).failedProducts).length = 0
    · rw [if_pos h0] at hw
      exact absurd hw (by simp)
    · rw [if_neg h0] at hw
      injection hw with hw
      subst hw
      exact jsSetDedup_nodup _

/-- Witness for the amended C2: a non-empty accumulator `[7, 7]` produces
the deduplicated manifest write `[7]` and the raw suggestion `[7, 7]`. -/
theorem manifest_write_dedup_witness :
    (runWorker ⟨[], [7, 7]⟩ (fun _ => true)).failedProducts ≠ [] ∧
    (runWorker ⟨[], [7, 7]⟩ (fun _ => true)).manifestWrite = some [7] ∧
    (runWorker ⟨[], [7, 7]⟩ (fun _ => true)).suggestion = some [7, 7] :=
  have h := (manifest_write_dedup ⟨[], [7, 7]⟩ (fun _ => true)).2.1 (by decide)
  ⟨by decide, h.1.trans (by decide), h.2.trans (by decide)⟩

/-- C1, exercised at its failing input: a failed-manifest rerun from a
manifest listing ids 2 and 9 in which both products now succeed still
reports 2 failures and success count 0, rewrites the stale manifest
`[2, 9]`, and suggests rerunning the two products that just succeeded —
because the constructor seeds the failure accumulator with the loaded
manifest ids and `run` never removes them on success. -/
theorem useFailed_success_still_writes_manifest :
    (runWorker (initWorker [⟨2⟩, ⟨9⟩] none true (Except.ok (some [2, 9])))
        (fun _ => true)).processed = [2, 9] ∧
    (runWorker (initWorker [⟨2⟩, ⟨9⟩] none true (Except.ok (some [2, 9])))
        (fun _ => true)).failedCount = 2 ∧
    (runWorker (initWorker [⟨2⟩, ⟨9⟩] none true (Except.ok (some [2, 9])))
        (fun _ => true)).successCount = 0 ∧
    (runWorker (initWorker [⟨2⟩, ⟨9⟩] none true (Except.ok (some [2, 9])))
        (fun _ => true)).manifestWrite = some [2, 9] ∧
    (runWorker (initWorker [⟨2⟩, ⟨9⟩] none true (Except.ok (some [2, 9])))
        (fun _ => true)).suggestion = some [2, 9] := by decide

end ImageIngestion
